import Mathlib

/-!
# A verification development for `index.js`

`index.js` is a single-file Node.js HTTP server.  Its three parts are

* the request listener handed to `http.createServer`, which computes
  `filePath = path.join(__dirname, 'basic.html')` and starts `fs.readFile`;
* the callback of `fs.readFile`, which answers 500 / `text/plain` /
  `Internal Server Error` (and prints the error) when `err` is set, and
  200 / `text/html` / the bytes read otherwise;
* the start-up code `port = process.env.PORT || 3000` and
  `server.listen(port, ...)`, whose callback prints the start-up line.

The embedding is by explicit state passing.  Calls on the response object,
calls on the console, calls of `fs.readFile` and the calls that `fs.readFile`
makes of its callback are recorded, in program order, in a trace.  A closure
is represented by its code together with the variables it captures.  The event
loop of Node runs one callback at a time to completion, so an execution is a
sequence of events, each of which runs one callback of the program.  An
exception that leaves a callback uncaught ends the process.

`index.js` has `import` and `export default` declarations, so it is an ES
module.  The scope of an ES module has no variable `__dirname`; reading it in
the request listener throws a `ReferenceError`.  The model keeps both cases of
the variable, unbound and bound, and `esModule` is the scope of `index.js`.
-/

namespace Website

/-! ## Data -/

/-- Raw bytes, as held by a Node `Buffer`. -/
abbrev Buffer := List UInt8

/-- The argument of `res.end`: a string or a `Buffer`. -/
inductive Chunk where
  | str (s : String)
  | buf (b : Buffer)
deriving DecidableEq, Repr

/-- Bytes that a chunk puts in the response body: a string is sent in UTF-8,
a buffer as it is. -/
def Chunk.bytes : Chunk → Buffer
  | .str s => s.toUTF8.data.toList
  | .buf b => b

/-- The `req` object.  The program never reads any of its fields. -/
structure IncomingMessage where
  method : String
  url : String
  headers : List (String × String)
  body : Buffer
deriving DecidableEq, Repr

/-- A JavaScript exception: the name of its class and its message. -/
structure JsError where
  name : String
  message : String
deriving DecidableEq, Repr

/-- The scope in which the module runs, as far as the program reads it. -/
structure Module where
  /-- Value of the free variable `__dirname`, or `none` when the scope does not
  bind it.  The wrapper of a CommonJS module binds it to the directory of the
  script; the scope of an ES module does not bind it. -/
  __dirname : Option String
  /-- The function `path.join`, applied to its list of arguments. -/
  pathJoin : List String → String

/-- The scope of `index.js`: an ES module, in which `__dirname` is not bound. -/
def esModule (pathJoin : List String → String) : Module :=
  { __dirname := none, pathJoin := pathJoin }

/-- One recorded call, in program order.  The type `ε` is the type of the
error objects that `fs.readFile` reports.  A response object is identified by
a number. -/
inductive Effect (ε : Type) where
  /-- Records `fs.readFile(path, cb)`, where `cb` captures response `res`. -/
  | fsReadFile (path : String) (res : Nat)
  /-- Records that `fs.readFile` calls `cb(err, data)`, where `cb` captures
  response `res`; `none` stands for `null` or `undefined`. -/
  | callback (res : Nat) (err : Option ε) (data : Option Buffer)
  /-- Records `res.writeHead(statusCode, headers)`. -/
  | resWriteHead (res : Nat) (statusCode : Nat) (headers : List (String × String))
  /-- Records `res.end(chunk)`; `none` stands for an `undefined` argument. -/
  | resEnd (res : Nat) (chunk : Option Chunk)
  /-- Records `console.error(err)`. -/
  | consoleError (err : ε)
  /-- Records `console.log(line)`. -/
  | consoleLog (line : String)
  /-- Records an exception that leaves a callback uncaught. -/
  | uncaught (err : JsError)
deriving DecidableEq, Repr

/-- The closure passed to `fs.readFile`, waiting for the read to finish: its
code is `readFileCallback`, and it captures the variables `filePath`, `req`
and `res` of the request listener. -/
structure ReadFileCall where
  path : String
  req : IncomingMessage
  res : Nat
deriving DecidableEq, Repr

/-! ## The program -/

/-- The callback `(err, data) => ...` of `fs.readFile`, in the closure `c`.
`err` is `null` (`none`) or an error object. -/
def readFileCallback {ε : Type} (c : ReadFileCall) (err : Option ε) (data : Option Buffer) :
    List (Effect ε) :=
  match err with
  | some e =>
    [ .resWriteHead c.res 500 [("Content-Type", "text/plain")],
      .resEnd c.res (some (.str "Internal Server Error")),
      .consoleError e ]
  | none =>
    [ .resWriteHead c.res 200 [("Content-Type", "text/html")],
      .resEnd c.res (data.map .buf) ]

/-- The callback `(req, res) => ...` of `http.createServer`.  Reading
`__dirname` throws when the scope does not bind it; otherwise the listener
starts one read and does nothing else.  The result is the exception thrown or
the list of reads started. -/
def requestListener (m : Module) (req : IncomingMessage) (res : Nat) :
    Except JsError (List ReadFileCall) :=
  match m.__dirname with
  | none => .error { name := "ReferenceError", message := "__dirname is not defined" }
  | some dir =>
    let filePath := m.pathJoin [dir, "basic.html"]
    .ok [{ path := filePath, req := req, res := res }]

/-- How `fs.readFile` calls its callback once the read has finished: with
`(err, undefined)` after a failure and with `(null, data)` after a success. -/
def complete {ε : Type} (c : ReadFileCall) (outcome : Except ε Buffer) : List (Effect ε) :=
  match outcome with
  | .error e => .callback c.res (some e) none :: readFileCallback c (some e) none
  | .ok d => .callback c.res none (some d) :: readFileCallback c none (some d)

/-! ## The event loop -/

/-- State of a running server.  `disk` gives, for each path, the outcome that
a read of the whole file has at this moment.  `pending` holds the reads that
were started and whose callback has not run yet.  `nextRes` numbers the
response objects: `http` creates a fresh one for every request.  `trace`
records every call made so far.  `crashed` tells that an uncaught exception
has ended the process. -/
structure World (ε : Type) where
  disk : String → Except ε Buffer
  pending : List ReadFileCall
  nextRes : Nat
  trace : List (Effect ε)
  crashed : Bool

/-- A server that has just started on the given disk. -/
def World.init {ε : Type} (disk : String → Except ε Buffer) : World ε :=
  { disk := disk, pending := [], nextRes := 0, trace := [], crashed := false }

/-- What can happen to a running server. -/
inductive Event (ε : Type) where
  /-- A request arrives; the request listener runs. -/
  | request (req : IncomingMessage)
  /-- The `k`-th pending read finishes; its callback runs. -/
  | readDone (k : Nat)
  /-- Something outside the server changes the files on disk. -/
  | setDisk (disk : String → Except ε Buffer)

/-- One turn of the event loop.  A process that has ended runs no callback. -/
def step {ε : Type} (m : Module) (w : World ε) : Event ε → World ε
  | .request req =>
    if w.crashed then w else
    match requestListener m req w.nextRes with
    | .ok calls =>
      { w with
        pending := w.pending ++ calls
        nextRes := w.nextRes + 1
        trace := w.trace ++ calls.map (fun c => Effect.fsReadFile c.path c.res) }
    | .error err =>
      { w with
        nextRes := w.nextRes + 1
        trace := w.trace ++ [Effect.uncaught err]
        crashed := true }
  | .readDone k =>
    if w.crashed then w else
    match w.pending[k]? with
    | some c =>
      { w with
        pending := w.pending.eraseIdx k
        trace := w.trace ++ complete c (w.disk c.path) }
    | none => w
  | .setDisk disk => { w with disk := disk }

/-- Runs a sequence of events. -/
def run {ε : Type} (m : Module) (w : World ε) (events : List (Event ε)) : World ε :=
  events.foldl (step m) w

/-- Trace of one request handled alone on a given disk: the request arrives
and then the first pending read, if there is one, finishes. -/
def handle {ε : Type} (m : Module) (disk : String → Except ε Buffer)
    (req : IncomingMessage) : List (Effect ε) :=
  (run m (World.init disk) [.request req, .readDone 0]).trace

/-! ## Observations on a trace -/

/-- A call on a response object. -/
inductive ResCall where
  | writeHead (statusCode : Nat) (headers : List (String × String))
  | endWith (chunk : Option Chunk)
deriving DecidableEq, Repr

/-- Calls made on response object `res`, in order. -/
def resCalls {ε : Type} (res : Nat) (trace : List (Effect ε)) : List ResCall :=
  trace.filterMap fun
    | .resWriteHead r s h => if r = res then some (.writeHead s h) else none
    | .resEnd r c => if r = res then some (.endWith c) else none
    | _ => none

/-- Paths of the reads started for response object `res`, in order. -/
def readsFor {ε : Type} (res : Nat) (trace : List (Effect ε)) : List String :=
  trace.filterMap fun
    | .fsReadFile p r => if r = res then some p else none
    | _ => none

/-- Arguments with which the read callback of response object `res` was
called, in order. -/
def callbacksFor {ε : Type} (res : Nat) (trace : List (Effect ε)) :
    List (Option ε × Option Buffer) :=
  trace.filterMap fun
    | .callback r err data => if r = res then some (err, data) else none
    | _ => none

/-- Errors with which read callbacks were called, in order: the failed reads. -/
def failedReads {ε : Type} (trace : List (Effect ε)) : List ε :=
  trace.filterMap fun
    | .callback _ (some e) _ => some e
    | _ => none

/-- Errors written to the diagnostic stream by `console.error`, in order. -/
def diagnostics {ε : Type} (trace : List (Effect ε)) : List ε :=
  trace.filterMap fun
    | .consoleError e => some e
    | _ => none

/-- Lines written to standard output, in order. -/
def stdoutLines {ε : Type} (trace : List (Effect ε)) : List String :=
  trace.filterMap fun
    | .consoleLog l => some l
    | _ => none

/-- An HTTP response as the client is sent it by the program: status code,
the headers the program set, body bytes. -/
structure Response where
  status : Nat
  headers : List (String × String)
  body : Buffer
deriving DecidableEq, Repr

/-- The response that a list of calls on one response object amounts to,
when the calls are one `writeHead` followed by one `end`. -/
def ResCall.response : List ResCall → Option Response
  | [.writeHead s h, .endWith c] =>
    some { status := s, headers := h, body := (c.map Chunk.bytes).getD [] }
  | _ => none

/-- The response written on response object `res`. -/
def responseOf {ε : Type} (res : Nat) (trace : List (Effect ε)) : Option Response :=
  ResCall.response (resCalls res trace)

/-- The calls on the response object that the table of responses prescribes
for the arguments `(err, data)` of the read callback. -/
def tableCalls {ε : Type} : Option ε × Option Buffer → List ResCall
  | (some _, _) =>
    [.writeHead 500 [("Content-Type", "text/plain")],
      .endWith (some (.str "Internal Server Error"))]
  | (none, data) =>
    [.writeHead 200 [("Content-Type", "text/html")], .endWith (data.map .buf)]

/-! ## Start-up -/

/-- The process environment, as far as the program reads it. -/
structure ProcessEnv where
  PORT : Option String

/-- A JavaScript value that is a number or a string. -/
inductive PortValue where
  | num (n : Nat)
  | str (s : String)
deriving DecidableEq, Repr

/-- The constant `port = process.env.PORT || 3000`.  An environment variable
is a string when set and `undefined` when not; `||` yields its right operand
when the left one is `undefined` or the empty string. -/
def port (env : ProcessEnv) : PortValue :=
  match env.PORT with
  | some s => if s = "" then .num 3000 else .str s
  | none => .num 3000

/-- Text of a port value inside a template literal. -/
def PortValue.text : PortValue → String
  | .num n => toString n
  | .str s => s

/-- The call `server.listen(port, cb)`: the port argument, and what `cb`
does when it is run. -/
structure ListenCall (ε : Type) where
  port : PortValue
  onListening : List (Effect ε)

/-- The start-up code of the module. -/
def startup (ε : Type) (env : ProcessEnv) : ListenCall ε :=
  let p := port env
  { port := p
    onListening := [.consoleLog ("Server running at http://localhost:" ++ p.text ++ "/")] }

/-- Port number that a port value denotes when it is a number or a string of
decimal digits. -/
def PortValue.number? : PortValue → Option Nat
  | .num n => some n
  | .str s => s.toNat?

/-! ## Schedules and invariants -/

/-- Requests served one after the other: before each request the disk is as
given, the request arrives, and its read finishes before the next request. -/
def sequential {ε : Type} :
    List ((String → Except ε Buffer) × IncomingMessage) → List (Event ε)
  | [] => []
  | (disk, req) :: rest => .setDisk disk :: .request req :: .readDone 0 :: sequential rest

/-- Invariant of every run.  No two pending reads are for the same response
object, and each is for a response object already handed out.  The callback
of a pending read, and of a response object not yet handed out, has not been
called.  No callback is called twice.  The calls on a response object are
those of the table, for each call of its callback.  The errors printed by
`console.error` are those of the failed reads. -/
structure Sound {ε : Type} (w : World ε) : Prop where
  distinct : w.pending.Pairwise (fun a b => a.res ≠ b.res)
  bound : ∀ c ∈ w.pending, c.res < w.nextRes
  fresh : ∀ c ∈ w.pending, callbacksFor c.res w.trace = []
  unborn : ∀ r, w.nextRes ≤ r → callbacksFor r w.trace = []
  once : ∀ r, (callbacksFor r w.trace).length ≤ 1
  calls : ∀ r, resCalls r w.trace = (callbacksFor r w.trace).flatMap tableCalls
  diag : diagnostics w.trace = failedReads w.trace

/-- Invariant of every run of a module whose scope does not bind
`__dirname`: no read is pending, and the trace has no read, no call of a
callback, no call on a response object and no call of `console.error`. -/
structure Silent {ε : Type} (w : World ε) : Prop where
  pending : w.pending = []
  reads : ∀ r, readsFor r w.trace = []
  callbacks : ∀ r, callbacksFor r w.trace = []
  calls : ∀ r, resCalls r w.trace = []
  diag : diagnostics w.trace = []

/-- Value of a list of decimal digit characters read from the left, starting
from `acc`. -/
def decimalValue (acc : Nat) (cs : List Char) : Nat :=
  cs.foldl (fun n c => n * 10 + (c.toNat - '0'.toNat)) acc

/-! ## Sample deployments -/

/-- A join of path segments that puts a slash between its arguments. -/
def slashJoin (parts : List String) : String :=
  String.intercalate "/" parts

/-- A scope that binds `__dirname` to `/myproject`, as the wrapper of a
CommonJS module does for a script in that directory. -/
def boundModule : Module :=
  { __dirname := some "/myproject", pathJoin := slashJoin }

/-- The bytes of `<h1>Hi</h1>`. -/
def hiPage : Buffer := [60, 104, 49, 62, 72, 105, 60, 47, 104, 49, 62]

/-- The bytes of `<p>New</p>`. -/
def newPage : Buffer := [60, 112, 62, 78, 101, 119, 60, 47, 112, 62]

/-- A disk on which `/myproject/basic.html` holds the given bytes and no other
file exists. -/
def diskWith (contents : Buffer) : String → Except String Buffer :=
  fun p => if p = "/myproject/basic.html" then .ok contents else .error "ENOENT"

/-- A disk without any file. -/
def diskWithout : String → Except String Buffer :=
  fun _ => .error "ENOENT"

/-- The request `GET /`. -/
def getRoot : IncomingMessage := { method := "GET", url := "/", headers := [], body := [] }

/-- The request `POST /anything/else` with a header and a body. -/
def postOther : IncomingMessage :=
  { method := "POST", url := "/anything/else", headers := [("Accept", "*/*")], body := [1, 2] }

/-- Three requests arrive; the read of the second finishes first, then the
read of the first; the read of the third is still going on. -/
def sampleSchedule : List (Event String) :=
  [.request getRoot, .request postOther, .readDone 1, .request getRoot, .readDone 0]

/-- Three requests served one after the other: the file holds `<h1>Hi</h1>`,
then it is deleted, then it holds `<p>New</p>`. -/
def sampleInputs : List ((String → Except String Buffer) × IncomingMessage) :=
  [(diskWith hiPage, getRoot), (diskWithout, getRoot), (diskWith newPage, getRoot)]

/-! ## Lemmas on traces -/

theorem resCalls_append {ε : Type} (r : Nat) (t1 t2 : List (Effect ε)) :
    resCalls r (t1 ++ t2) = resCalls r t1 ++ resCalls r t2 := by
  simp [resCalls, List.filterMap_append]

theorem readsFor_append {ε : Type} (r : Nat) (t1 t2 : List (Effect ε)) :
    readsFor r (t1 ++ t2) = readsFor r t1 ++ readsFor r t2 := by
  simp [readsFor, List.filterMap_append]

theorem callbacksFor_append {ε : Type} (r : Nat) (t1 t2 : List (Effect ε)) :
    callbacksFor r (t1 ++ t2) = callbacksFor r t1 ++ callbacksFor r t2 := by
  simp [callbacksFor, List.filterMap_append]

theorem diagnostics_append {ε : Type} (t1 t2 : List (Effect ε)) :
    diagnostics (t1 ++ t2) = diagnostics t1 ++ diagnostics t2 := by
  simp [diagnostics, List.filterMap_append]

theorem failedReads_append {ε : Type} (t1 t2 : List (Effect ε)) :
    failedReads (t1 ++ t2) = failedReads t1 ++ failedReads t2 := by
  simp [failedReads, List.filterMap_append]

theorem callbacksFor_complete_ne {ε : Type} (r : Nat) (c : ReadFileCall)
    (o : Except ε Buffer) (h : c.res ≠ r) : callbacksFor r (complete c o) = [] := by
  cases o <;> simp [complete, readFileCallback, callbacksFor, h]

theorem callbacksFor_complete_length {ε : Type} (r : Nat) (c : ReadFileCall)
    (o : Except ε Buffer) : (callbacksFor r (complete c o)).length ≤ 1 := by
  cases o <;> by_cases h : c.res = r <;> simp [complete, readFileCallback, callbacksFor, h]

theorem resCalls_complete {ε : Type} (r : Nat) (c : ReadFileCall) (o : Except ε Buffer) :
    resCalls r (complete c o) = (callbacksFor r (complete c o)).flatMap tableCalls := by
  cases o <;> by_cases h : c.res = r <;>
    simp [complete, readFileCallback, callbacksFor, resCalls, tableCalls, h]

theorem diagnostics_complete {ε : Type} (c : ReadFileCall) (o : Except ε Buffer) :
    diagnostics (complete c o) = failedReads (complete c o) := by
  cases o <;> simp [complete, readFileCallback, diagnostics, failedReads]

theorem mem_callbacksFor {ε : Type} (r : Nat) (err : Option ε) (data : Option Buffer)
    (t : List (Effect ε)) (h : Effect.callback r err data ∈ t) :
    (err, data) ∈ callbacksFor r t := by
  simp only [callbacksFor, List.mem_filterMap]
  exact ⟨_, h, by simp⟩

theorem eq_singleton_of_mem {α : Type} (l : List α) (x : α) (hl : l.length ≤ 1) (hx : x ∈ l) :
    l = [x] := by
  match l, hl, hx with
  | [y], _, hx => simpa using (List.mem_singleton.1 hx).symm
  | _ :: _ :: _, hl, _ => simp at hl

theorem get?_split {α : Type} (l : List α) (k : Nat) (c : α) (h : l[k]? = some c) :
    ∃ l1 l2, l = l1 ++ c :: l2 ∧ l.eraseIdx k = l1 ++ l2 := by
  induction l generalizing k with
  | nil => simp at h
  | cons a l ih =>
    cases k with
    | zero =>
      simp at h
      exact ⟨[], l, by simp [h], by simp⟩
    | succ k =>
      simp at h
      obtain ⟨l1, l2, h1, h2⟩ := ih k (by simpa using h)
      exact ⟨a :: l1, l2, by simp [h1], by simp [h2]⟩

theorem run_cons {ε : Type} (m : Module) (w : World ε) (e : Event ε) (es : List (Event ε)) :
    run m w (e :: es) = run m (step m w e) es := rfl

/-- The turn in which the `k`-th pending read finishes, in a process that is
running: the callback of that read is called on the outcome that the disk
gives for its path, and the read is no longer pending. -/
theorem step_readDone {ε : Type} (m : Module) (w : World ε) (k : Nat) (c : ReadFileCall)
    (hc : w.crashed = false) (hk : w.pending[k]? = some c) :
    step m w (.readDone k)
      = { w with pending := w.pending.eraseIdx k,
                 trace := w.trace ++ complete c (w.disk c.path) } := by
  simp [step, hc, hk]

/-! ## The invariant of every run -/

theorem sound_init {ε : Type} (disk : String → Except ε Buffer) : Sound (World.init disk) where
  distinct := by simp [World.init]
  bound := by simp [World.init]
  fresh := by simp [World.init]
  unborn := by simp [World.init, callbacksFor]
  once := by simp [World.init, callbacksFor]
  calls := by simp [World.init, callbacksFor, resCalls]
  diag := by simp [World.init, diagnostics, failedReads]

theorem sound_request {ε : Type} {w : World ε} (hw : Sound w) (m : Module)
    (req : IncomingMessage) : Sound (step m w (.request req)) := by
  cases hc : w.crashed with
  | true =>
    have : step m w (.request req) = w := by simp [step, hc]
    rw [this]; exact hw
  | false =>
    cases hd : m.__dirname with
    | none =>
      have hstep : step m w (.request req)
          = { w with nextRes := w.nextRes + 1,
                     trace := w.trace ++
                       [Effect.uncaught
                         { name := "ReferenceError", message := "__dirname is not defined" }],
                     crashed := true } := by
        simp [step, hc, requestListener, hd]
      rw [hstep]
      refine ⟨hw.distinct, ?_, ?_, ?_, ?_, ?_, ?_⟩
      · intro c h; have := hw.bound c h; simp only; omega
      · intro c h
        simp only [callbacksFor_append, hw.fresh c h]
        simp [callbacksFor]
      · intro r h
        simp only at h
        simp only [callbacksFor_append, hw.unborn r (by omega)]
        simp [callbacksFor]
      · intro r
        have : callbacksFor r (w.trace ++ [Effect.uncaught
            { name := "ReferenceError", message := "__dirname is not defined" }])
            = callbacksFor r w.trace := by
          simp [callbacksFor_append, callbacksFor]
        simp only [this]; exact hw.once r
      · intro r
        have h1 : callbacksFor r (w.trace ++ [Effect.uncaught
            { name := "ReferenceError", message := "__dirname is not defined" }])
            = callbacksFor r w.trace := by
          simp [callbacksFor_append, callbacksFor]
        have h2 : resCalls r (w.trace ++ [Effect.uncaught
            { name := "ReferenceError", message := "__dirname is not defined" }])
            = resCalls r w.trace := by
          simp [resCalls_append, resCalls]
        simp only [h1, h2]; exact hw.calls r
      · simp only [diagnostics_append, failedReads_append, hw.diag]
        simp [diagnostics, failedReads]
    | some dir =>
      have hstep : step m w (.request req)
          = { w with pending := w.pending ++
                       [{ path := m.pathJoin [dir, "basic.html"], req := req,
                          res := w.nextRes }],
                     nextRes := w.nextRes + 1,
                     trace := w.trace ++
                       [Effect.fsReadFile (m.pathJoin [dir, "basic.html"]) w.nextRes] } := by
        simp [step, hc, requestListener, hd]
      have hcb : ∀ r, callbacksFor r (w.trace ++
          [Effect.fsReadFile (m.pathJoin [dir, "basic.html"]) w.nextRes])
          = callbacksFor r w.trace := by
        intro r; simp [callbacksFor_append, callbacksFor]
      have hrc : ∀ r, resCalls r (w.trace ++
          [Effect.fsReadFile (m.pathJoin [dir, "basic.html"]) w.nextRes])
          = resCalls r w.trace := by
        intro r; simp [resCalls_append, resCalls]
      rw [hstep]
      refine ⟨?_, ?_, ?_, ?_, ?_, ?_, ?_⟩
      · simp only [List.pairwise_append, List.pairwise_singleton, List.mem_singleton, true_and]
        refine ⟨hw.distinct, ?_⟩
        intro a ha b hb
        have := hw.bound a ha
        rw [hb]; simp only; omega
      · intro c h
        simp only [List.mem_append, List.mem_singleton] at h
        rcases h with h | h
        · have := hw.bound c h; simp only; omega
        · rw [h]; simp
      · intro c h
        simp only [List.mem_append, List.mem_singleton] at h
        simp only [hcb]
        rcases h with h | h
        · exact hw.fresh c h
        · rw [h]; exact hw.unborn _ (Nat.le_refl _)
      · intro r h
        simp only at h
        simp only [hcb]
        exact hw.unborn r (by omega)
      · intro r; simp only [hcb]; exact hw.once r
      · intro r; simp only [hcb, hrc]; exact hw.calls r
      · simp only [diagnostics_append, failedReads_append, hw.diag]
        simp [diagnostics, failedReads]

theorem sound_readDone {ε : Type} {w : World ε} (hw : Sound w) (m : Module) (k : Nat) :
    Sound (step m w (.readDone k)) := by
  cases hc : w.crashed with
  | true =>
    have : step m w (.readDone k) = w := by simp [step, hc]
    rw [this]; exact hw
  | false =>
    cases hk : w.pending[k]? with
    | none =>
      have : step m w (.readDone k) = w := by simp [step, hc, hk]
      rw [this]; exact hw
    | some c =>
      obtain ⟨l1, l2, hsplit, herase⟩ := get?_split _ _ _ hk
      have hstep : step m w (.readDone k)
          = { w with pending := l1 ++ l2, trace := w.trace ++ complete c (w.disk c.path) } := by
        simp [step, hc, hk, herase]
      have hcmem : c ∈ w.pending := by rw [hsplit]; simp
      have hsub : ∀ c' ∈ l1 ++ l2, c' ∈ w.pending := by
        intro c' h'
        rw [hsplit]
        simp only [List.mem_append, List.mem_cons] at h' ⊢
        tauto
      have hdist := hw.distinct
      rw [hsplit, List.pairwise_append, List.pairwise_cons] at hdist
      obtain ⟨hd1, ⟨hd2, hd3⟩, hd4⟩ := hdist
      have hgone : ∀ c' ∈ l1 ++ l2, c.res ≠ c'.res := by
        intro c' h'
        simp only [List.mem_append] at h'
        rcases h' with h' | h'
        · exact fun h => hd4 c' h' c (by simp) h.symm
        · exact hd2 c' h'
      rw [hstep]
      refine ⟨?_, fun c' h' => hw.bound c' (hsub c' h'), ?_, ?_, ?_, ?_, ?_⟩
      · simp only [List.pairwise_append]
        exact ⟨hd1, hd3, fun a ha b hb => hd4 a ha b (by simp [hb])⟩
      · intro c' h'
        simp only [callbacksFor_append, hw.fresh c' (hsub c' h'),
          callbacksFor_complete_ne _ _ _ (hgone c' h'), List.append_nil]
      · intro r h
        have hne : c.res ≠ r := by
          have := hw.bound c hcmem
          simp only at h
          omega
        simp only [callbacksFor_append, hw.unborn r h, callbacksFor_complete_ne _ _ _ hne,
          List.append_nil]
      · intro r
        simp only [callbacksFor_append, List.length_append]
        by_cases hr : c.res = r
        · have h0 := hw.fresh c hcmem
          rw [hr] at h0
          rw [h0]
          simpa using callbacksFor_complete_length r c (w.disk c.path)
        · rw [callbacksFor_complete_ne _ _ _ hr]
          simpa using hw.once r
      · intro r
        simp only [callbacksFor_append, resCalls_append, List.flatMap_append, hw.calls r,
          resCalls_complete]
      · simp only [diagnostics_append, failedReads_append, hw.diag, diagnostics_complete]

theorem sound_step {ε : Type} {w : World ε} (hw : Sound w) (m : Module) (e : Event ε) :
    Sound (step m w e) := by
  cases e with
  | request req => exact sound_request hw m req
  | readDone k => exact sound_readDone hw m k
  | setDisk disk => exact ⟨hw.distinct, hw.bound, hw.fresh, hw.unborn, hw.once, hw.calls, hw.diag⟩

theorem sound_run {ε : Type} (m : Module) (events : List (Event ε)) {w : World ε}
    (hw : Sound w) : Sound (run m w events) := by
  induction events generalizing w with
  | nil => exact hw
  | cons e es ih =>
    rw [run_cons]
    exact ih (sound_step hw m e)

/-- In every run, the calls on a response object whose callback was called
with `(err, data)` are those of the table for `(err, data)`. -/
theorem calls_of_callback {ε : Type} (m : Module) (disk : String → Except ε Buffer)
    (events : List (Event ε)) (r : Nat) (err : Option ε) (data : Option Buffer)
    (h : Effect.callback r err data ∈ (run m (World.init disk) events).trace) :
    resCalls r (run m (World.init disk) events).trace = tableCalls (err, data) := by
  have hs := sound_run m events (sound_init disk)
  have hmem := mem_callbacksFor r err data _ h
  have hsingle := eq_singleton_of_mem _ _ (hs.once r) hmem
  rw [hs.calls r, hsingle]
  simp

/-! ## Runs of a module whose scope does not bind `__dirname` -/

theorem silent_init {ε : Type} (disk : String → Except ε Buffer) :
    Silent (World.init disk) where
  pending := rfl
  reads := by simp [World.init, readsFor]
  callbacks := by simp [World.init, callbacksFor]
  calls := by simp [World.init, resCalls]
  diag := by simp [World.init, diagnostics]

theorem silent_step {ε : Type} {w : World ε} (hw : Silent w) (pathJoin : List String → String)
    (e : Event ε) : Silent (step (esModule pathJoin) w e) := by
  cases e with
  | setDisk disk => exact ⟨hw.pending, hw.reads, hw.callbacks, hw.calls, hw.diag⟩
  | readDone k =>
    have : Website.step (esModule pathJoin) w (.readDone k) = w := by
      cases hc : w.crashed <;> simp [Website.step, hc, hw.pending]
    rw [this]; exact hw
  | request req =>
    cases hc : w.crashed with
    | true =>
      have : Website.step (esModule pathJoin) w (.request req) = w := by
        simp [Website.step, hc]
      rw [this]; exact hw
    | false =>
      have hstep : Website.step (esModule pathJoin) w (.request req)
          = { w with nextRes := w.nextRes + 1,
                     trace := w.trace ++
                       [Effect.uncaught
                         { name := "ReferenceError", message := "__dirname is not defined" }],
                     crashed := true } := by
        simp [Website.step, hc, requestListener, esModule]
      rw [hstep]
      refine ⟨hw.pending, ?_, ?_, ?_, ?_⟩
      · intro r; simp only [readsFor_append, hw.reads r]; rfl
      · intro r; simp only [callbacksFor_append, hw.callbacks r]; rfl
      · intro r; simp only [resCalls_append, hw.calls r]; rfl
      · simp only [diagnostics_append, hw.diag]; rfl

theorem silent_run {ε : Type} (pathJoin : List String → String) (events : List (Event ε))
    {w : World ε} (hw : Silent w) : Silent (run (esModule pathJoin) w events) := by
  induction events generalizing w with
  | nil => exact hw
  | cons e es ih =>
    rw [run_cons]
    exact ih (silent_step hw pathJoin e)

/-! ## Decimal digits -/

theorem digitChar_isDigit (k : Nat) (hk : k < 10) : (Nat.digitChar k).isDigit = true := by
  interval_cases k <;> decide

theorem digitChar_value (k : Nat) (hk : k < 10) :
    (Nat.digitChar k).toNat - '0'.toNat = k := by
  interval_cases k <;> decide

theorem decimalValue_acc (cs : List Char) (acc : Nat) :
    decimalValue acc cs = acc * 10 ^ cs.length + decimalValue 0 cs := by
  induction cs generalizing acc with
  | nil => simp [decimalValue]
  | cons c cs ih =>
    have h1 := ih (acc * 10 + (c.toNat - '0'.toNat))
    have h2 := ih (0 * 10 + (c.toNat - '0'.toNat))
    simp only [decimalValue, List.foldl_cons, List.length_cons] at h1 h2 ⊢
    rw [h1, h2, pow_succ]
    ring

theorem toDigitsCore_allDigits (fuel n : Nat) (ds : List Char)
    (hds : ds.all Char.isDigit = true) :
    (Nat.toDigitsCore 10 fuel n ds).all Char.isDigit = true := by
  induction fuel generalizing n ds with
  | zero => simpa [Nat.toDigitsCore] using hds
  | succ fuel ih =>
    have hd : (Nat.digitChar (n % 10)).isDigit = true :=
      digitChar_isDigit _ (Nat.mod_lt _ (by decide))
    have hcons : (Nat.digitChar (n % 10) :: ds).all Char.isDigit = true := by
      simp only [List.all_cons, hd, hds, Bool.and_self]
    simp only [Nat.toDigitsCore]
    split
    · exact hcons
    · exact ih _ _ hcons

theorem toDigitsCore_ne_nil (fuel n : Nat) (ds : List Char) (hf : 0 < fuel) :
    Nat.toDigitsCore 10 fuel n ds ≠ [] := by
  induction fuel generalizing n ds with
  | zero => omega
  | succ fuel ih =>
    simp only [Nat.toDigitsCore]
    split
    · simp
    · rename_i h
      cases fuel with
      | zero => simp [Nat.toDigitsCore]
      | succ f => exact ih _ _ (by omega)

theorem toDigitsCore_value (fuel n : Nat) (ds : List Char) (hf : n < fuel) :
    decimalValue 0 (Nat.toDigitsCore 10 fuel n ds)
      = n * 10 ^ ds.length + decimalValue 0 ds := by
  induction fuel generalizing n ds with
  | zero => omega
  | succ fuel ih =>
    have hv := digitChar_value (n % 10) (Nat.mod_lt _ (by decide))
    have hcons : decimalValue 0 (Nat.digitChar (n % 10) :: ds)
        = (n % 10) * 10 ^ ds.length + decimalValue 0 ds := by
      have := decimalValue_acc ds (0 * 10 + ((Nat.digitChar (n % 10)).toNat - '0'.toNat))
      simp only [decimalValue, List.foldl_cons] at this ⊢
      rw [this, hv]; simp
    simp only [Nat.toDigitsCore]
    split
    · rename_i h0
      rw [hcons]
      have : n % 10 = n := by omega
      rw [this]
    · rename_i h0
      have hlt : n / 10 < fuel := by omega
      rw [ih _ _ hlt, hcons, List.length_cons, pow_succ]
      have hn : n = 10 * (n / 10) + n % 10 := (Nat.div_add_mod n 10).symm
      generalize n / 10 = q at hn ⊢
      generalize n % 10 = r at hn ⊢
      subst hn
      ring

theorem toString_ne_empty (n : Nat) : toString n ≠ "" := by
  intro h
  have h1 : (toString n).data = [] := by rw [h]
  exact toDigitsCore_ne_nil (n + 1) n [] (by omega) h1

theorem toNat?_toString (n : Nat) : (toString n).toNat? = some n := by
  have hd : (toString n).data = Nat.toDigitsCore 10 (n + 1) n [] := rfl
  have hall := toDigitsCore_allDigits (n + 1) n [] rfl
  have hval := toDigitsCore_value (n + 1) n [] (by omega)
  have hne := toString_ne_empty n
  have hemp : (toString n).isEmpty = false := by
    rw [Bool.eq_false_iff]; intro h; exact hne ((String.isEmpty_iff _).1 h)
  unfold String.toNat? String.isNat
  rw [String.all_eq, String.foldl_eq, hd, hall, hemp]
  simp only [Bool.not_false, Bool.and_self, if_true]
  have : decimalValue 0 (Nat.toDigitsCore 10 (n + 1) n []) = n := by
    rw [hval]; simp [decimalValue]
  exact congrArg some this

/-! ## The claims -/

/-- Claim C1.  For every request and every byte sequence `d`: when the read of
the target file succeeds with contents `d`, the response has status 200, the
single header `Content-Type: text/html`, and the body `d`, byte for byte.
First, for every closure of the read callback, so for every request and every
response object: when `fs.readFile` reports the contents `d`, the callback
makes exactly the calls `writeHead(200, Content-Type: text/html)` and `end(d)`
on its own response object.  Second, in every state of a running server, when
a pending read finishes and the disk holds `d` at its path, exactly these
calls are added to the trace.  Third, in every run of the server, whatever the
module scope, the events and their order: a response object whose callback was
called with `(null, d)` has received exactly these two calls, which make the
response 200, `text/html`, `d`. -/
theorem read_success_gives_200 {ε : Type} (m : Module) (disk : String → Except ε Buffer)
    (events : List (Event ε)) (r : Nat) (d : Buffer)
    (h : Effect.callback r none (some d) ∈ (run m (World.init disk) events).trace) :
    (∀ c : ReadFileCall,
      complete c (.ok d : Except ε Buffer)
        = [.callback c.res none (some d),
           .resWriteHead c.res 200 [("Content-Type", "text/html")],
           .resEnd c.res (some (.buf d))]) ∧
    (∀ (w : World ε) (k : Nat) (c : ReadFileCall),
      w.crashed = false → w.pending[k]? = some c → w.disk c.path = .ok d →
      (step m w (.readDone k)).trace
        = w.trace ++ [.callback c.res none (some d),
                      .resWriteHead c.res 200 [("Content-Type", "text/html")],
                      .resEnd c.res (some (.buf d))]) ∧
    resCalls r (run m (World.init disk) events).trace
      = [.writeHead 200 [("Content-Type", "text/html")], .endWith (some (.buf d))] ∧
    responseOf r (run m (World.init disk) events).trace
      = some { status := 200, headers := [("Content-Type", "text/html")], body := d } := by
  have hc := calls_of_callback m disk events r none (some d) h
  refine ⟨fun c => rfl, ?_, ?_, ?_⟩
  · intro w k c hcr hk hd
    rw [step_readDone m w k c hcr hk, hd]
    rfl
  · rw [hc]; rfl
  · rw [responseOf, hc]; rfl

theorem read_success_gives_200_witness :
    Effect.callback 1 none (some hiPage)
      ∈ (run boundModule (World.init (diskWith hiPage)) sampleSchedule).trace ∧
    (∀ c : ReadFileCall,
      complete c (.ok hiPage : Except String Buffer)
        = [.callback c.res none (some hiPage),
           .resWriteHead c.res 200 [("Content-Type", "text/html")],
           .resEnd c.res (some (.buf hiPage))]) ∧
    (∀ (w : World String) (k : Nat) (c : ReadFileCall),
      w.crashed = false → w.pending[k]? = some c → w.disk c.path = .ok hiPage →
      (step boundModule w (.readDone k)).trace
        = w.trace ++ [.callback c.res none (some hiPage),
                      .resWriteHead c.res 200 [("Content-Type", "text/html")],
                      .resEnd c.res (some (.buf hiPage))]) ∧
    resCalls 1 (run boundModule (World.init (diskWith hiPage)) sampleSchedule).trace
      = [.writeHead 200 [("Content-Type", "text/html")], .endWith (some (.buf hiPage))] ∧
    responseOf 1 (run boundModule (World.init (diskWith hiPage)) sampleSchedule).trace
      = some { status := 200, headers := [("Content-Type", "text/html")], body := hiPage } :=
  ⟨by decide,
    read_success_gives_200 boundModule (diskWith hiPage) sampleSchedule 1 hiPage (by decide)⟩

/-- Claim C2.  For every request and every read error `e`: when the read of the
target file fails with `e`, the response has status 500, the single header
`Content-Type: text/plain`, and as body exactly the string `Internal Server
Error`, whatever `e` is.  First, for every closure of the read callback, so
for every request and every response object: called with the error `e`, the
callback makes exactly the calls `writeHead(500, Content-Type: text/plain)`
and `end("Internal Server Error")` on its own response object, and then
`console.error(e)`; `e` goes nowhere else.  Second, in every state of a
running server, when a pending read finishes and the disk gives the error `e`
at its path, exactly these calls are added to the trace.  Third, in every run
of the server, a response object whose callback was called with the error `e`
has received exactly these two calls, which make the response 500,
`text/plain`, `Internal Server Error`. -/
theorem read_failure_gives_500 {ε : Type} (m : Module) (disk : String → Except ε Buffer)
    (events : List (Event ε)) (r : Nat) (e : ε) (data : Option Buffer)
    (h : Effect.callback r (some e) data ∈ (run m (World.init disk) events).trace) :
    (∀ c : ReadFileCall,
      complete c (.error e : Except ε Buffer)
        = [.callback c.res (some e) none,
           .resWriteHead c.res 500 [("Content-Type", "text/plain")],
           .resEnd c.res (some (.str "Internal Server Error")),
           .consoleError e]) ∧
    (∀ (w : World ε) (k : Nat) (c : ReadFileCall),
      w.crashed = false → w.pending[k]? = some c → w.disk c.path = .error e →
      (step m w (.readDone k)).trace
        = w.trace ++ [.callback c.res (some e) none,
                      .resWriteHead c.res 500 [("Content-Type", "text/plain")],
                      .resEnd c.res (some (.str "Internal Server Error")),
                      .consoleError e]) ∧
    resCalls r (run m (World.init disk) events).trace
      = [.writeHead 500 [("Content-Type", "text/plain")],
          .endWith (some (.str "Internal Server Error"))] ∧
    responseOf r (run m (World.init disk) events).trace
      = some { status := 500, headers := [("Content-Type", "text/plain")],
               body := "Internal Server Error".toUTF8.data.toList } := by
  have hc := calls_of_callback m disk events r (some e) data h
  refine ⟨fun c => rfl, ?_, ?_, ?_⟩
  · intro w k c hcr hk hd
    rw [step_readDone m w k c hcr hk, hd]
    rfl
  · rw [hc]; rfl
  · rw [responseOf, hc]; rfl

theorem read_failure_gives_500_witness :
    Effect.callback 1 (some "ENOENT") none
      ∈ (run boundModule (World.init diskWithout) (sequential sampleInputs)).trace ∧
    (∀ c : ReadFileCall,
      complete c (.error "ENOENT" : Except String Buffer)
        = [.callback c.res (some "ENOENT") none,
           .resWriteHead c.res 500 [("Content-Type", "text/plain")],
           .resEnd c.res (some (.str "Internal Server Error")),
           .consoleError "ENOENT"]) ∧
    (∀ (w : World String) (k : Nat) (c : ReadFileCall),
      w.crashed = false → w.pending[k]? = some c → w.disk c.path = .error "ENOENT" →
      (step boundModule w (.readDone k)).trace
        = w.trace ++ [.callback c.res (some "ENOENT") none,
                      .resWriteHead c.res 500 [("Content-Type", "text/plain")],
                      .resEnd c.res (some (.str "Internal Server Error")),
                      .consoleError "ENOENT"]) ∧
    resCalls 1 (run boundModule (World.init diskWithout) (sequential sampleInputs)).trace
      = [.writeHead 500 [("Content-Type", "text/plain")],
          .endWith (some (.str "Internal Server Error"))] ∧
    responseOf 1 (run boundModule (World.init diskWithout) (sequential sampleInputs)).trace
      = some { status := 500, headers := [("Content-Type", "text/plain")],
               body := "Internal Server Error".toUTF8.data.toList } :=
  ⟨by decide,
    read_failure_gives_500 boundModule diskWithout (sequential sampleInputs) 1 "ENOENT" none
      (by decide)⟩

/-- Claim C3.  The response is a function of the read outcome alone.  First,
for any two closures of the read callback, which may differ in the request,
the path and the response object, and any read outcome: the calls that each
makes on its own response object are the same, and they make a response.
Second, whatever the module scope and the disk, any two requests handled
alone give the same trace.  Third, for any two response objects, in one run or
in two runs of the server, whose callbacks were called with the same
`(err, data)`: the two responses are equal, and there is one.  In particular a
request repeated in one run, with the same read outcome, gets the same
response as the first time. -/
theorem response_depends_on_outcome_only {ε : Type} (m1 m2 : Module)
    (disk1 disk2 : String → Except ε Buffer) (events1 events2 : List (Event ε))
    (r1 r2 : Nat) (err : Option ε) (data : Option Buffer)
    (h1 : Effect.callback r1 err data ∈ (run m1 (World.init disk1) events1).trace)
    (h2 : Effect.callback r2 err data ∈ (run m2 (World.init disk2) events2).trace) :
    (∀ (c1 c2 : ReadFileCall) (o : Except ε Buffer),
      resCalls c1.res (complete c1 o) = resCalls c2.res (complete c2 o) ∧
      responseOf c1.res (complete c1 o) = responseOf c2.res (complete c2 o) ∧
      (responseOf c1.res (complete c1 o)).isSome = true) ∧
    (∀ (m : Module) (disk : String → Except ε Buffer) (q1 q2 : IncomingMessage),
      handle m disk q1 = handle m disk q2) ∧
    responseOf r1 (run m1 (World.init disk1) events1).trace
      = responseOf r2 (run m2 (World.init disk2) events2).trace ∧
    (responseOf r1 (run m1 (World.init disk1) events1).trace).isSome = true := by
  have hc1 := calls_of_callback m1 disk1 events1 r1 err data h1
  have hc2 := calls_of_callback m2 disk2 events2 r2 err data h2
  refine ⟨?_, ?_, ?_, ?_⟩
  · intro c1 c2 o
    have hcalls : resCalls c1.res (complete c1 o) = resCalls c2.res (complete c2 o) := by
      cases o <;> simp [complete, readFileCallback, resCalls]
    refine ⟨hcalls, ?_, ?_⟩
    · rw [responseOf, responseOf, hcalls]
    · cases o <;> simp [responseOf, complete, readFileCallback, resCalls, ResCall.response]
  · intro m disk q1 q2
    cases hd : m.__dirname with
    | none => simp [handle, run, step, World.init, requestListener, hd]
    | some dir =>
      cases ho : disk (m.pathJoin [dir, "basic.html"]) <;>
        simp [handle, run, step, World.init, requestListener, hd, ho, complete,
          readFileCallback]
  · rw [responseOf, responseOf, hc1, hc2]
  · rw [responseOf, hc1]
    cases err <;> rfl

theorem response_depends_on_outcome_only_witness :
    (Effect.callback 0 none (some hiPage)
        ∈ (run boundModule (World.init (diskWith hiPage))
            (sequential [(diskWith hiPage, getRoot), (diskWith hiPage, getRoot)])).trace ∧
      Effect.callback 1 none (some hiPage)
        ∈ (run boundModule (World.init (diskWith hiPage))
            (sequential [(diskWith hiPage, getRoot), (diskWith hiPage, getRoot)])).trace) ∧
    (∀ (c1 c2 : ReadFileCall) (o : Except String Buffer),
      resCalls c1.res (complete c1 o) = resCalls c2.res (complete c2 o) ∧
      responseOf c1.res (complete c1 o) = responseOf c2.res (complete c2 o) ∧
      (responseOf c1.res (complete c1 o)).isSome = true) ∧
    (∀ (m : Module) (disk : String → Except String Buffer) (q1 q2 : IncomingMessage),
      handle m disk q1 = handle m disk q2) ∧
    responseOf 0 (run boundModule (World.init (diskWith hiPage))
        (sequential [(diskWith hiPage, getRoot), (diskWith hiPage, getRoot)])).trace
      = responseOf 1 (run boundModule (World.init (diskWith hiPage))
        (sequential [(diskWith hiPage, getRoot), (diskWith hiPage, getRoot)])).trace ∧
    (responseOf 0 (run boundModule (World.init (diskWith hiPage))
        (sequential [(diskWith hiPage, getRoot), (diskWith hiPage, getRoot)])).trace).isSome
      = true :=
  ⟨⟨by decide, by decide⟩,
    response_depends_on_outcome_only boundModule boundModule (diskWith hiPage)
      (diskWith hiPage)
      (sequential [(diskWith hiPage, getRoot), (diskWith hiPage, getRoot)])
      (sequential [(diskWith hiPage, getRoot), (diskWith hiPage, getRoot)])
      0 1 none (some hiPage) (by decide) (by decide)⟩

/-- Claim C4, which `index.js` does not meet.  The claim is that each request
performs exactly one read of the target file and gets the response of that
read.  In the scope of `index.js`, an ES module, the request listener throws
at `__dirname` before it reaches `fs.readFile`: in the run of any sequence
of requests served one after the other, no read is started for any request
and no request gets a response.  With the file present, then deleted, then
changed, the whole trace is the one uncaught `ReferenceError` of the first
request. -/
theorem sequential_run_reads_nothing {ε : Type} (pathJoin : List String → String)
    (disk0 : String → Except ε Buffer)
    (inputs : List ((String → Except ε Buffer) × IncomingMessage)) (i : Nat) :
    readsFor i (run (esModule pathJoin) (World.init disk0) (sequential inputs)).trace = [] ∧
    responseOf i (run (esModule pathJoin) (World.init disk0) (sequential inputs)).trace
      = none ∧
    (run (esModule pathJoin) (World.init diskWithout) (sequential sampleInputs)).trace
      = [.uncaught { name := "ReferenceError", message := "__dirname is not defined" }] := by
  have hs := silent_run pathJoin (sequential inputs) (silent_init disk0)
  refine ⟨hs.reads i, ?_, rfl⟩
  rw [responseOf, hs.calls i]
  rfl

/-- Claim C5.  The listening port comes from the environment variable `PORT`.
When `PORT` is absent, `listen` is called with the number 3000.  When `PORT`
is the decimal text of a number `n`, `listen` is called with that text, which
denotes `n`; so with `PORT=4500` it is called with `"4500"`, which denotes
4500. -/
theorem port_from_environment (ε : Type) (n : Nat) :
    (startup ε { PORT := none }).port = .num 3000 ∧
    (startup ε { PORT := none }).port.number? = some 3000 ∧
    (startup ε { PORT := some (toString n) }).port = .str (toString n) ∧
    (startup ε { PORT := some (toString n) }).port.number? = some n ∧
    (startup ε { PORT := some "4500" }).port = .str "4500" ∧
    (startup ε { PORT := some "4500" }).port.number? = some 4500 := by
  have h4500 : ("4500" : String) = toString 4500 := by decide
  refine ⟨rfl, rfl, ?_, ?_, rfl, ?_⟩
  · simp [startup, port, toString_ne_empty]
  · simp [startup, port, toString_ne_empty, PortValue.number?, toNat?_toString]
  · rw [h4500]
    simp [startup, port, toString_ne_empty, PortValue.number?, toNat?_toString]

/-- Claim C6, which `index.js` does not meet.  The claim is that for every
request the path handed to the file read is the directory of the program
joined with `basic.html`.  In the scope of `index.js`, an ES module, the
request listener throws a `ReferenceError` at `__dirname` for every request
and every response object, so in no run is any path handed to `fs.readFile`.
In a scope that does bind `__dirname`, as the comment in the source takes
it, the listener starts the one read of `path.join(__dirname, "basic.html")`
whatever the request is. -/
theorem listener_throws_at_dirname {ε : Type} (pathJoin : List String → String)
    (req : IncomingMessage) (res : Nat) (disk : String → Except ε Buffer)
    (events : List (Event ε)) (r : Nat) :
    requestListener (esModule pathJoin) req res
      = .error { name := "ReferenceError", message := "__dirname is not defined" } ∧
    readsFor r (run (esModule pathJoin) (World.init disk) events).trace = [] ∧
    (∀ dir : String,
      requestListener { __dirname := some dir, pathJoin := pathJoin } req res
        = .ok [{ path := pathJoin [dir, "basic.html"], req := req, res := res }]) :=
  ⟨rfl, (silent_run pathJoin events (silent_init disk)).reads r, fun _ => rfl⟩

/-- Claim C7.  The handler writes to the diagnostic stream exactly once, the
read error itself, for every request whose file read fails, and writes nothing
to it for a request whose file read succeeds.  First, for every closure of the
read callback, so for every request and every response object: after a failed
read with error `e` the errors printed by `console.error` are exactly `e`,
once; after a successful read nothing is printed.  Second, in every state of
a running server, the turn in which a pending read finishes prints exactly the
error that the disk gives at its path, once, or nothing when the disk gives
contents.  Third, in every run of the server, the errors printed by
`console.error` are exactly the errors of the failed reads, one for one and in
the same order. -/
theorem diagnostics_only_on_failure {ε : Type} (m : Module)
    (disk : String → Except ε Buffer) (events : List (Event ε)) :
    (∀ (c : ReadFileCall) (e : ε),
      diagnostics (complete c (.error e : Except ε Buffer)) = [e]) ∧
    (∀ (c : ReadFileCall) (d : Buffer),
      diagnostics (complete c (.ok d : Except ε Buffer)) = []) ∧
    (∀ (w : World ε) (k : Nat) (c : ReadFileCall) (e : ε),
      w.crashed = false → w.pending[k]? = some c → w.disk c.path = .error e →
      diagnostics (step m w (.readDone k)).trace = diagnostics w.trace ++ [e]) ∧
    (∀ (w : World ε) (k : Nat) (c : ReadFileCall) (d : Buffer),
      w.crashed = false → w.pending[k]? = some c → w.disk c.path = .ok d →
      diagnostics (step m w (.readDone k)).trace = diagnostics w.trace) ∧
    diagnostics (run m (World.init disk) events).trace
      = failedReads (run m (World.init disk) events).trace := by
  refine ⟨fun _ _ => rfl, fun _ _ => rfl, ?_, ?_,
    (sound_run m events (sound_init disk)).diag⟩
  · intro w k c e hcr hk hd
    rw [step_readDone m w k c hcr hk, hd]
    simp only [diagnostics_append]
    rfl
  · intro w k c d hcr hk hd
    rw [step_readDone m w k c hcr hk, hd]
    simp only [diagnostics_append]
    exact List.append_nil _

/-- Claim C8, which `index.js` does not meet.  The claim is that for every
request the handler emits exactly one response, either the 200 or the 500
one.  In the scope of `index.js`, an ES module, there is a third outcome and
it is the only one: for every request and every disk the whole trace of the
handler is one uncaught `ReferenceError`, with no header write and no `end`
on any response object, so there is no response. -/
theorem handler_emits_no_response {ε : Type} (pathJoin : List String → String)
    (disk : String → Except ε Buffer) (req : IncomingMessage) (r : Nat) :
    handle (esModule pathJoin) disk req
      = [.uncaught { name := "ReferenceError", message := "__dirname is not defined" }] ∧
    resCalls r (handle (esModule pathJoin) disk req) = [] ∧
    responseOf r (handle (esModule pathJoin) disk req) = none :=
  ⟨rfl, rfl, rfl⟩

/-- Claim C9, which `index.js` does not meet.  The claim is that each of any
number of requests handled at the same time, with the file present, gets the
200 response.  In the scope of `index.js`, an ES module, whatever the number
of requests, the order of the events and the contents of the disk, no call is
made on any response object and no request gets a response; with three
requests and the file present, the whole trace is the one uncaught
`ReferenceError` of the first request. -/
theorem simultaneous_requests_unanswered {ε : Type} (pathJoin : List String → String)
    (disk : String → Except ε Buffer) (events : List (Event ε)) (r : Nat) :
    resCalls r (run (esModule pathJoin) (World.init disk) events).trace = [] ∧
    responseOf r (run (esModule pathJoin) (World.init disk) events).trace = none ∧
    (run (esModule pathJoin) (World.init (diskWith hiPage)) sampleSchedule).trace
      = [.uncaught { name := "ReferenceError", message := "__dirname is not defined" }] := by
  have hs := silent_run pathJoin events (silent_init disk)
  refine ⟨hs.calls r, ?_, rfl⟩
  rw [responseOf, hs.calls r]
  rfl

/-- Claim C10.  The value of `PORT` is neither validated nor parsed.  For every
non-empty string `s`, with `PORT = s` the value passed to `listen` is the
string `s` itself and the start-up line is `Server running at
http://localhost:` followed by `s` and `/`.  The default 3000 is used exactly
when `PORT` is unset or is the empty string. -/
theorem port_not_validated (ε : Type) (s : String) (hs : s ≠ "") :
    (startup ε { PORT := some s }).port = .str s ∧
    stdoutLines (startup ε { PORT := some s }).onListening
      = ["Server running at http://localhost:" ++ s ++ "/"] ∧
    (∀ env : ProcessEnv,
      (startup ε env).port = .num 3000 ↔ env.PORT = none ∨ env.PORT = some "") := by
  refine ⟨?_, ?_, ?_⟩
  · simp [startup, port, hs]
  · simp [startup, port, hs, stdoutLines, PortValue.text]
  · rintro ⟨p⟩
    cases p with
    | none => simp [startup, port]
    | some t =>
      by_cases ht : t = ""
      · simp [startup, port, ht]
      · simp [startup, port, ht]

theorem port_not_validated_witness :
    ("abc" : String) ≠ "" ∧
    (startup String { PORT := some "abc" }).port = .str "abc" ∧
    stdoutLines (startup String { PORT := some "abc" }).onListening
      = ["Server running at http://localhost:" ++ "abc" ++ "/"] ∧
    (∀ env : ProcessEnv,
      (startup String env).port = .num 3000 ↔ env.PORT = none ∨ env.PORT = some "") :=
  ⟨by decide, port_not_validated String "abc" (by decide)⟩

end Website
